import Mathlib

/-!
Shallow embedding of the CamMask host backend (Firebase HTTP request handlers,
`src/functions/index.js`).  Each handler is a pure function from its request
fields, a timestamp `now` (standing for `new Date().toISOString()`), and the
document-store state to a response together with the new store state.  The
document store (Firestore) is modelled as association lists keyed by document
id; `where`-queries are filters over those lists and `orderBy` queries sort
them.  Request-body values are modelled by `JSVal`; identifier fields
(`googleId`, `uploaderGoogleId`, `maskId`), which the handlers use as document
keys, are modelled as strings (the document-key space).
-/

/-- JavaScript values as they occur in the handlers' request bodies and stored
documents: `null`, `undefined` (a missing field), booleans, finite numbers
(modelled as rationals), `NaN`, strings, and arrays of strings (the shape of
the `images` and `tags` fields). -/
inductive JSVal where
  | jnull : JSVal
  | jundef : JSVal
  | jbool : Bool → JSVal
  | jnum : ℚ → JSVal
  | jnan : JSVal
  | jstr : String → JSVal
  | jarr : List String → JSVal
  deriving DecidableEq, Repr

/-- JavaScript loose equality with `null` (`x == null`), true exactly for
`null` and `undefined`. -/
def jsLooseNull : JSVal → Bool
  | .jnull => true
  | .jundef => true
  | _ => false

/-- The handlers' recurring validation test `x === "" || x == null`. -/
def isEmptyOrNullish (v : JSVal) : Bool :=
  v == .jstr "" || jsLooseNull v

/-- JavaScript falsiness, as tested by `if (!x)` and `x || y`: false, `null`,
`undefined`, `0`, `NaN` and the empty string are falsy; arrays are truthy. -/
def jsFalsy : JSVal → Bool
  | .jnull => true
  | .jundef => true
  | .jbool b => !b
  | .jnum q => q == 0
  | .jnan => true
  | .jstr s => s == ""
  | .jarr _ => false

/-- JavaScript `a || b` as used for the `description || ''` and `tags || []`
defaults. -/
def jsOr (a b : JSVal) : JSVal :=
  if jsFalsy a then b else a

/-- Decimal string of an integer, as JavaScript renders integral numbers. -/
def intDecimal (i : ℤ) : String :=
  toString i

/-- Number-to-string conversion.  The handlers only ever stringify integral
numbers (rating totals built from integral ratings); non-integral rationals
are rendered as a fraction as a placeholder, a case no handler reaches. -/
def numToDecimal (q : ℚ) : String :=
  if q.den = 1 then intDecimal q.num
  else intDecimal q.num ++ "/" ++ toString q.den

/-- JavaScript `ToPrimitive`: arrays of strings convert to their
comma-separated join (`Array.prototype.toString`); other values are already
primitive. -/
def jsPrim : JSVal → JSVal
  | .jarr xs => .jstr (String.intercalate "," xs)
  | v => v

/-- JavaScript `ToString` on primitives (after `jsPrim`). -/
def jsPrimToDecimal : JSVal → String
  | .jnull => "null"
  | .jundef => "undefined"
  | .jbool b => if b then "true" else "false"
  | .jnum q => numToDecimal q
  | .jnan => "NaN"
  | .jstr s => s
  | .jarr xs => String.intercalate "," xs

/-- Numeric value of a digit list read in base 10. -/
def digitsVal (cs : List Char) : ℕ :=
  cs.foldl (fun a c => a * 10 + (c.toNat - '0'.toNat)) 0

/-- Fragment of JavaScript numeric string parsing (`ToNumber` on strings):
an optional sign followed by decimal digits and an optional decimal point;
the empty (trimmed) string is 0; anything else is `NaN` (`none`).  Exponent
and hex forms are outside the data these handlers see. -/
def parseNumLit (s : String) : Option ℚ :=
  let cs := s.trim.toList
  if cs.isEmpty then some 0
  else
    let signAndRest : ℤ × List Char :=
      match cs with
      | '-' :: r => (-1, r)
      | '+' :: r => (1, r)
      | r => (1, r)
    let ds := signAndRest.2.takeWhile Char.isDigit
    let rest := signAndRest.2.drop ds.length
    if ds.isEmpty then none
    else
      match rest with
      | [] => some (signAndRest.1 * (digitsVal ds : ℤ))
      | '.' :: fs =>
        if fs.all Char.isDigit then
          some (signAndRest.1 * ((digitsVal ds : ℚ) + (digitsVal fs : ℚ) / ((10 : ℚ) ^ fs.length)))
        else none
      | _ => none

/-- JavaScript `ToNumber` after `ToPrimitive`; `none` is `NaN`. -/
def jsToNumber (v : JSVal) : Option ℚ :=
  match jsPrim v with
  | .jnull => some 0
  | .jundef => none
  | .jbool b => some (if b then 1 else 0)
  | .jnum q => some q
  | .jnan => none
  | .jstr s => parseNumLit s
  | .jarr xs => parseNumLit (String.intercalate "," xs)

/-- Test for a (primitive) string value. -/
def isJStr : JSVal → Bool
  | .jstr _ => true
  | _ => false

/-- JavaScript `+`: if either primitive operand is a string the result is
string concatenation, otherwise numeric addition (with `NaN` propagation). -/
def jsAdd (a b : JSVal) : JSVal :=
  let pa := jsPrim a
  let pb := jsPrim b
  if isJStr pa || isJStr pb then
    .jstr (jsPrimToDecimal pa ++ jsPrimToDecimal pb)
  else
    match jsToNumber pa, jsToNumber pb with
    | some x, some y => .jnum (x + y)
    | _, _ => .jnan

/-- JavaScript division of a value by a count (`totalRating / ratingCount`).
A non-numeric numerator gives `NaN`.  The zero-count case is unreachable in
the handlers (a rating row has always just been written); it is mapped to
`NaN` here. -/
def jsDivNat (total : JSVal) (count : ℕ) : JSVal :=
  match jsToNumber total, count with
  | some x, (n + 1) => .jnum (x / ((n : ℚ) + 1))
  | _, _ => .jnan

/-- User document (`users` collection), keyed by the Google id. -/
structure UserDoc where
  id : String
  name : JSVal
  photoUrl : JSVal
  canComment : Bool
  canUpload : Bool
  creationDate : ℕ
  lastAccess : ℕ
  deriving DecidableEq, Repr

/-- Mask document (`masks` collection), keyed by the stringified integer id. -/
structure MaskDoc where
  id : ℕ
  maskUrl : JSVal
  maskName : JSVal
  description : JSVal
  images : JSVal
  tags : JSVal
  uploaderGoogleId : String
  averageRating : JSVal
  ratingsCount : ℕ
  uploadedOn : ℕ
  lastAccessedOn : ℕ
  isRemoved : Bool
  deriving DecidableEq, Repr

/-- Rating document (`ratings` collection), keyed by an auto-generated id. -/
structure RatingDoc where
  maskId : String
  googleId : String
  rating : JSVal
  postedOn : ℕ
  deriving DecidableEq, Repr

/-- Document-store state: each collection is an association list from
document key to document. -/
structure DB where
  users : List (String × UserDoc)
  masks : List (String × MaskDoc)
  ratings : List (String × RatingDoc)
  deriving DecidableEq, Repr

/-- Get-by-key (`collection.doc(k).get()`). -/
def getDoc (coll : List (String × α)) (k : String) : Option α :=
  (coll.find? (fun p => p.1 == k)).map (fun p => p.2)

/-- Set/update-by-key (`doc(k).set(v)` / `doc(k).update(...)` after reading):
replaces the entry with key `k` in place or appends a new one.  Store keys
are unique per collection, so replacing the first occurrence models the
keyed write exactly. -/
def setDoc : List (String × α) → String → α → List (String × α)
  | [], k, v => [(k, v)]
  | p :: t, k, v => if p.1 == k then (k, v) :: t else p :: setDoc t k v

/-- Ordered insertion, used to model the store's `orderBy` queries. -/
def insertLe (le : α → α → Bool) (a : α) : List α → List α
  | [] => [a]
  | b :: bs => if le a b then a :: b :: bs else b :: insertLe le a bs

/-- Insertion sort, used to model the store's `orderBy` queries. -/
def sortLe (le : α → α → Bool) : List α → List α
  | [] => []
  | a :: as => insertLe le a (sortLe le as)

/-- Responses the handlers produce: plain-text sends, the empty-object JSON
reply, JSON documents, and the JSON success envelopes. -/
inductive HResp where
  | text (status : ℕ) (body : String)
  | jsonEmpty (status : ℕ)
  | jsonUser (status : ℕ) (u : UserDoc)
  | jsonMask (status : ℕ) (m : MaskDoc)
  | jsonMasks (status : ℕ) (ms : List MaskDoc) (lastId : Option String)
  | jsonOk (status : ℕ)
  | jsonMaskId (status : ℕ) (maskId : ℕ)
  deriving DecidableEq, Repr

/-- HTTP status of a response. -/
def HResp.status : HResp → ℕ
  | .text s _ => s
  | .jsonEmpty s => s
  | .jsonUser s _ => s
  | .jsonMask s _ => s
  | .jsonMasks s _ _ => s
  | .jsonOk s => s
  | .jsonMaskId s _ => s

/-- The `createUser` handler (POST path).  Note the source's duplicate branch:
when the user already exists it sends the 400 response but is missing a
`return`, so execution falls through into the write and the final 200 send;
the response the client receives is the first one sent (400), while the
write still happens.  The write is therefore performed unconditionally here
and the response is selected by the existence check. -/
def createUser (now : ℕ) (googleId : String) (name photoUrl : JSVal)
    (db : DB) : HResp × DB :=
  if googleId = "" then (.text 400 "Missing googleId", db)
  else if jsFalsy name then (.text 400 "Missing name", db)
  else
    let alreadyExists := (getDoc db.users googleId).isSome
    let fresh : UserDoc :=
      { id := googleId, name := name, photoUrl := photoUrl,
        canComment := true, canUpload := true,
        creationDate := now, lastAccess := now }
    let db2 := { db with users := setDoc db.users googleId fresh }
    if alreadyExists then (.text 400 "User already exists", db2)
    else (.text 200 "User created", db2)

/-- The `getUser` handler (GET path).  On a hit it updates `lastAccess` and
returns the snapshot read before the update. -/
def getUser (now : ℕ) (googleId : String) (db : DB) : HResp × DB :=
  if googleId = "" then (.text 400 "Missing googleId", db)
  else
    match getDoc db.users googleId with
    | none => (.jsonEmpty 200, db)
    | some u =>
      let db2 := { db with users := setDoc db.users googleId { u with lastAccess := now } }
      (.jsonUser 200 u, db2)

/-- Request body of `createMask`.  The uploader id is used as a document key
and is modelled as a string; the content fields are arbitrary JS values. -/
structure CreateMaskReq where
  maskUrl : JSVal
  name : JSVal
  description : JSVal
  images : JSVal
  tags : JSVal
  uploaderGoogleId : String
  deriving DecidableEq, Repr

/-- One step of the id scan in `createMask` and `postComment`:
`if (maskData.id === nextId) nextId++`. -/
def nextIdStep (acc i : ℕ) : ℕ :=
  if i = acc then acc + 1 else acc

/-- The id scan: fold `nextIdStep` over the ids in query order starting
from 0. -/
def nextIdScan (ids : List ℕ) : ℕ :=
  ids.foldl nextIdStep 0

/-- The `masks` collection in `orderBy('id')` query order. -/
def masksOrderedById (db : DB) : List MaskDoc :=
  sortLe (fun a b => a.id ≤ b.id) (db.masks.map (fun p => p.2))

/-- The `createMask` handler (POST path): validate the four required fields
(`v === "" || v == null`), check the uploader exists and may upload, scan the
masks ordered by id for the next id, and write the new mask keyed by its
stringified id. -/
def createMask (now : ℕ) (req : CreateMaskReq) (db : DB) : HResp × DB :=
  if isEmptyOrNullish req.maskUrl then (.text 400 "maskUrl is empty", db)
  else if isEmptyOrNullish req.name then (.text 400 "name is empty", db)
  else if req.uploaderGoogleId = "" then (.text 400 "uploaderGoogleId is empty", db)
  else if isEmptyOrNullish req.images then (.text 400 "images is empty", db)
  else
    match getDoc db.users req.uploaderGoogleId with
    | none => (.text 404 "User not found", db)
    | some u =>
      if !u.canUpload then (.text 403 "User is not allowed to upload", db)
      else
        let nextId := nextIdScan ((masksOrderedById db).map (fun m => m.id))
        let m : MaskDoc :=
          { id := nextId, maskUrl := req.maskUrl, maskName := req.name,
            description := jsOr req.description (.jstr ""),
            images := req.images, tags := jsOr req.tags (.jarr []),
            uploaderGoogleId := req.uploaderGoogleId,
            averageRating := .jnum 0, ratingsCount := 0,
            uploadedOn := now, lastAccessedOn := now, isRemoved := false }
        (.jsonMaskId 200 nextId,
         { db with masks := setDoc db.masks (toString nextId) m })

/-- The `getMask` handler (GET path): validate `maskId`, then 404 on a miss
and the stored document on a hit; the store state is never written. -/
def getMask (maskId : String) (db : DB) : HResp × DB :=
  if maskId = "" then (.text 400 "maskId is empty", db)
  else
    match getDoc db.masks maskId with
    | none => (.text 404 "Mask not found", db)
    | some m => (.jsonMask 200 m, db)

/-- Request query of `getMasks`; query-string parameters are strings when
present. -/
structure GetMasksReq where
  limit : Option String
  orderBy : Option String
  orderDirection : Option String
  lastId : Option String
  deriving DecidableEq, Repr

/-- Fragment of JavaScript `parseInt`: trim, optional sign, then the longest
decimal-digit prefix; no digits is `NaN` (`none`). -/
def parseIntJS (s : String) : Option ℤ :=
  let cs := s.trim.toList
  let signAndRest : ℤ × List Char :=
    match cs with
    | '-' :: r => (-1, r)
    | '+' :: r => (1, r)
    | r => (1, r)
  let ds := signAndRest.2.takeWhile Char.isDigit
  if ds.isEmpty then none else some (signAndRest.1 * (digitsVal ds : ℤ))

/-- Effective page size: `limit = parseInt(limit) || 6` (both `NaN` and 0 fall
back to 6). -/
def effLimit (o : Option String) : ℤ :=
  match o with
  | none => 6
  | some s =>
    match parseIntJS s with
    | none => 6
    | some z => if z = 0 then 6 else z

/-- Effective ordering field: any value other than the four whitelisted field
names falls back to `ratingsCount`. -/
def effOrderBy (o : Option String) : String :=
  match o with
  | none => "ratingsCount"
  | some s =>
    if s = "ratingsCount" ∨ s = "uploadedOn" ∨ s = "averageRating" ∨ s = "maskName" then s
    else "ratingsCount"

/-- Effective ordering direction: anything other than exactly `asc` or `desc`
falls back to `desc` (the source's `toLowerCase` in the else branch is a
no-op, since that branch is reached only for those two lowercase literals). -/
def effDir (o : Option String) : String :=
  match o with
  | none => "desc"
  | some s => if s = "asc" ∨ s = "desc" then s else "desc"

/-- Effective pagination cursor: `if (lastId)` — absent or empty means no
cursor. -/
def effLastId (o : Option String) : Option String :=
  match o with
  | none => none
  | some s => if s = "" then none else some s

/-- Firestore cross-type ordering rank (null, then booleans, then numbers
with `NaN` first, then strings, then arrays), modelling the external store's
comparator for `orderBy` on mixed-type fields. -/
def jsRank : JSVal → ℕ
  | .jnull => 0
  | .jundef => 0
  | .jbool _ => 1
  | .jnan => 2
  | .jnum _ => 3
  | .jstr _ => 4
  | .jarr _ => 5

/-- Firestore value ordering (model of the external store's comparator):
rank first, then the per-type order; string arrays are compared through
their joined form. -/
def jsFirestoreLe (a b : JSVal) : Bool :=
  if jsRank a = jsRank b then
    match a, b with
    | .jbool x, .jbool y => !x || y
    | .jnum x, .jnum y => x ≤ y
    | .jstr x, .jstr y => x ≤ y
    | .jarr x, .jarr y => String.intercalate "," x ≤ String.intercalate "," y
    | _, _ => true
  else jsRank a < jsRank b

/-- Comparator for the `orderBy` field of `getMasks` over keyed mask
documents. -/
def maskKeyLe (field : String) (a b : String × MaskDoc) : Bool :=
  if field = "uploadedOn" then a.2.uploadedOn ≤ b.2.uploadedOn
  else if field = "averageRating" then jsFirestoreLe a.2.averageRating b.2.averageRating
  else if field = "maskName" then jsFirestoreLe a.2.maskName b.2.maskName
  else a.2.ratingsCount ≤ b.2.ratingsCount

/-- Core of `getMasks` after the effective query parameters are computed:
order the masks, apply direction, start after the cursor document when it
exists, take the page, and answer 200 with the page and the key of its last
document. -/
def getMasksCore (lim : ℤ) (ob dir : String) (lastId : Option String)
    (db : DB) : HResp × DB :=
  let sortedAsc : List (String × MaskDoc) := sortLe (maskKeyLe ob) db.masks
  let sorted : List (String × MaskDoc) := if dir = "desc" then sortedAsc.reverse else sortedAsc
  let afterStart : List (String × MaskDoc) :=
    match lastId with
    | some lid =>
      if (getDoc db.masks lid).isSome then
        (sorted.dropWhile (fun p => !(p.1 == lid))).drop 1
      else sorted
    | none => sorted
  let page := afterStart.take lim.toNat
  (.jsonMasks 200 (page.map (fun p => p.2)) ((page.getLast?).map (fun p => p.1)), db)

/-- The `getMasks` handler (GET path): compute the effective limit, ordering
field, direction and cursor, then run the query. -/
def getMasks (req : GetMasksReq) (db : DB) : HResp × DB :=
  getMasksCore (effLimit req.limit) (effOrderBy req.orderBy)
    (effDir req.orderDirection) (effLastId req.lastId) db

/-- Rating rows for one (maskId, googleId) pair, in store order — the
`where('maskId','==',maskId).where('googleId','==',googleId)` query. -/
def pairRows (db : DB) (maskId googleId : String) : List (String × RatingDoc) :=
  db.ratings.filter (fun p => p.2.maskId == maskId && p.2.googleId == googleId)

/-- Rating rows referencing one mask — the `where('maskId','==',maskDocId)`
query used by the aggregate recomputation. -/
def maskRows (db : DB) (maskId : String) : List (String × RatingDoc) :=
  db.ratings.filter (fun p => p.2.maskId == maskId)

/-- Aggregate recomputation of `postRating`: `totalRating` summed with
JavaScript `+` from 0 over the rows in query order, divided by the row
count. -/
def recomputedAverage (rows : List (String × RatingDoc)) : JSVal :=
  jsDivNat (rows.foldl (fun acc p => jsAdd acc p.2.rating) (.jnum 0)) rows.length

/-- First store phase of a successful `postRating`: update the first existing
rating row for the pair (`docs[0]` of the pair query), or insert a fresh row
(`newKey` stands for the store's auto-generated document id). -/
def ratingUpsert (now : ℕ) (newKey maskId googleId : String)
    (rating : JSVal) (db : DB) : DB :=
  match (pairRows db maskId googleId).head? with
  | some (k, r0) =>
    { db with ratings := setDoc db.ratings k { r0 with rating := rating, postedOn := now } }
  | none =>
    { db with ratings := db.ratings ++
        [(newKey, { maskId := maskId, googleId := googleId, rating := rating, postedOn := now })] }

/-- Second store phase of a successful `postRating`: recompute the mask's
`averageRating` and `ratingsCount` from all rating rows referencing the mask
and write both back to the mask record (the source's `update` presupposes
the record exists, which the handler has checked; a missing record is a
no-op here). -/
def maskAggregateUpdate (maskId : String) (db1 : DB) : DB :=
  let rows := maskRows db1 maskId
  { db1 with masks :=
      match getDoc db1.masks maskId with
      | some m => setDoc db1.masks maskId
          { m with averageRating := recomputedAverage rows, ratingsCount := rows.length }
      | none => db1.masks }

/-- Store mutation of a successful `postRating`: the rating upsert followed
by the aggregate recomputation. -/
def postRatingWrite (now : ℕ) (newKey maskId googleId : String)
    (rating : JSVal) (db : DB) : DB :=
  maskAggregateUpdate maskId (ratingUpsert now newKey maskId googleId rating db)

/-- The `postRating` handler (POST path) specialised to a string request
`maskId` (the document-key form, on which the source's `String(maskId)` is
the identity): validate the three fields (`v === "" || v == null`; no range
or type check on `rating`), require the mask and the user to exist and the
user's `canComment`, then perform the write and answer `{success:true}`.
The handler over the raw request `maskId` value is `postRatingReq` below;
the two coincide on string maskIds (`postRatingReq_jstr`) and diverge on
numeric ones. -/
def postRating (now : ℕ) (newKey maskId googleId : String) (rating : JSVal)
    (db : DB) : HResp × DB :=
  if maskId = "" then (.text 400 "maskId is empty", db)
  else if googleId = "" then (.text 400 "googleId is empty", db)
  else if isEmptyOrNullish rating then (.text 400 "rating is empty", db)
  else
    match getDoc db.masks maskId with
    | none => (.text 404 "Mask not found", db)
    | some _ =>
      match getDoc db.users googleId with
      | none => (.text 404 "User not found", db)
      | some u =>
        if !u.canComment then (.text 403 "User is not allowed to comment", db)
        else (.jsonOk 200, postRatingWrite now newKey maskId googleId rating db)

/-- Rating rows matching the `postRating` pair lookup with the request's raw
`maskId` value (`where('maskId','==',maskId)`, index.js line 485).  The
stored `maskId` field is always a string (every write stores
`String(maskId)`), and the store's equality filter is type-strict, so a
stored row matches exactly when the raw request value is that same string
value. -/
def rawPairRows (db : DB) (maskId : JSVal) (googleId : String) :
    List (String × RatingDoc) :=
  db.ratings.filter (fun p => JSVal.jstr p.2.maskId == maskId && p.2.googleId == googleId)

/-- The `postRating` handler over the raw request `maskId` value, as
`src/functions/index.js` lines 438-532 treat it: validation and the pair
lookup use the raw `maskId` (line 485), while the mask lookup, the inserted
row and the aggregate recomputation use `maskDocId = String(maskId)` (lines
463, 497, 507).  On a string `maskId` this coincides with `postRating`
(`postRatingReq_jstr`); on a numeric `maskId` — the form `createMask`
returns in its 200 response — the type-strict pair lookup can never match
the stringified stored rows. -/
def postRatingReq (now : ℕ) (newKey : String) (maskId : JSVal) (googleId : String)
    (rating : JSVal) (db : DB) : HResp × DB :=
  if isEmptyOrNullish maskId then (.text 400 "maskId is empty", db)
  else if googleId = "" then (.text 400 "googleId is empty", db)
  else if isEmptyOrNullish rating then (.text 400 "rating is empty", db)
  else
    let maskDocId := jsPrimToDecimal maskId
    match getDoc db.masks maskDocId with
    | none => (.text 404 "Mask not found", db)
    | some _ =>
      match getDoc db.users googleId with
      | none => (.text 404 "User not found", db)
      | some u =>
        if !u.canComment then (.text 403 "User is not allowed to comment", db)
        else
          let db1 :=
            match (rawPairRows db maskId googleId).head? with
            | some (k, r0) =>
              { db with ratings := setDoc db.ratings k { r0 with rating := rating, postedOn := now } }
            | none =>
              { db with ratings := db.ratings ++
                  [(newKey, { maskId := maskDocId, googleId := googleId, rating := rating, postedOn := now })] }
          (.jsonOk 200, maskAggregateUpdate maskDocId db1)

/-- Numeric reading of a list of rating rows: `some` of the rational values
when every stored rating is a finite number, `none` otherwise. -/
def numRatings : List (String × RatingDoc) → Option (List ℚ)
  | [] => some []
  | p :: t =>
    match p.2.rating, numRatings t with
    | .jnum q, some qs => some (q :: qs)
    | _, _ => none

theorem getDoc_nil (k : String) : getDoc ([] : List (String × α)) k = none := rfl

theorem getDoc_cons (p : String × α) (t : List (String × α)) (k : String) :
    getDoc (p :: t) k = if p.1 == k then some p.2 else getDoc t k := by
  by_cases h : p.1 == k <;> simp [getDoc, List.find?, h]

theorem getDoc_setDoc_self (coll : List (String × α)) (k : String) (v : α) :
    getDoc (setDoc coll k v) k = some v := by
  induction coll with
  | nil => simp [setDoc, getDoc_cons, getDoc_nil]
  | cons p t ih =>
    by_cases h : p.1 == k
    · simp [setDoc, h, getDoc_cons]
    · simp [setDoc, h, getDoc_cons, ih]

theorem getDoc_setDoc_ne (coll : List (String × α)) (k q : String) (v : α)
    (h : q ≠ k) : getDoc (setDoc coll k v) q = getDoc coll q := by
  have hkq : (k == q) = false := beq_eq_false_iff_ne.mpr (fun hh => h hh.symm)
  induction coll with
  | nil => simp [setDoc, getDoc_cons, getDoc_nil, hkq]
  | cons p t ih =>
    by_cases hp : p.1 == k
    · have hp2 : p.1 = k := by simpa using hp
      simp [setDoc, hp, getDoc_cons, hkq, hp2]
    · simp [setDoc, hp, getDoc_cons, ih]

theorem setDoc_mem (coll : List (String × α)) (k : String) (v : α) :
    (k, v) ∈ setDoc coll k v := by
  induction coll with
  | nil => simp [setDoc]
  | cons p t ih =>
    by_cases h : p.1 == k
    · simp [setDoc, h]
    · simp [setDoc, h, ih]

/-- C1.  The spec requires `createUser` on an already-existing `googleId` to
answer 400 and leave the stored record unchanged; the source answers 400 but,
missing a `return`, still performs the fresh write.  At this concrete input a
user created earlier (creationDate 5, canComment and canUpload both revoked)
is overwritten with a fresh record (creationDate 99, both flags back to
true) even though the response is 400. -/
theorem createUser_duplicate_overwrites :
    (createUser 99 "u1" (.jstr "NewName") .jnull
      ⟨[("u1", ⟨"u1", .jstr "OldName", .jnull, false, false, 5, 5⟩)], [], []⟩).1
      = HResp.text 400 "User already exists" ∧
    getDoc (createUser 99 "u1" (.jstr "NewName") .jnull
      ⟨[("u1", ⟨"u1", .jstr "OldName", .jnull, false, false, 5, 5⟩)], [], []⟩).2.users "u1"
      = some ⟨"u1", .jstr "NewName", .jnull, true, true, 99, 99⟩ := by
  constructor <;> rfl

/-- C7.  `getUser` on a named (non-empty) `googleId`: a miss answers 200 with
the empty JSON object and leaves the store untouched; a hit answers 200 with
the full stored record and the only store change is that record's
`lastAccess` field, now set to `now`. -/
theorem getUser_miss_200_hit_touches_only_lastAccess (now : ℕ) (gid : String)
    (db : DB) (h : gid ≠ "") :
    (getDoc db.users gid = none → getUser now gid db = (.jsonEmpty 200, db)) ∧
    (∀ u, getDoc db.users gid = some u →
      (getUser now gid db).1 = .jsonUser 200 u ∧
      getDoc (getUser now gid db).2.users gid = some { u with lastAccess := now } ∧
      (∀ k2, k2 ≠ gid → getDoc (getUser now gid db).2.users k2 = getDoc db.users k2) ∧
      (getUser now gid db).2.masks = db.masks ∧
      (getUser now gid db).2.ratings = db.ratings) := by
  constructor
  · intro hnone
    simp [getUser, h, hnone]
  · intro u hu
    have hres : getUser now gid db =
        (.jsonUser 200 u, { db with users := setDoc db.users gid { u with lastAccess := now } }) := by
      simp [getUser, h, hu]
    rw [hres]
    exact ⟨rfl, getDoc_setDoc_self _ _ _, fun k2 hk => getDoc_setDoc_ne _ _ _ _ hk, rfl, rfl⟩

theorem getUser_witness :
    ("u" : String) ≠ "" ∧
    (getUser 42 "u" ⟨[("u", ⟨"u", .jstr "N", .jnull, true, true, 1, 1⟩)], [], []⟩).1
      = .jsonUser 200 ⟨"u", .jstr "N", .jnull, true, true, 1, 1⟩ ∧
    getDoc (getUser 42 "u" ⟨[("u", ⟨"u", .jstr "N", .jnull, true, true, 1, 1⟩)], [], []⟩).2.users "u"
      = some ⟨"u", .jstr "N", .jnull, true, true, 1, 42⟩ := by
  refine ⟨by decide, ?_, ?_⟩
  · exact ((getUser_miss_200_hit_touches_only_lastAccess 42 "u"
      ⟨[("u", ⟨"u", .jstr "N", .jnull, true, true, 1, 1⟩)], [], []⟩ (by decide)).2
      ⟨"u", .jstr "N", .jnull, true, true, 1, 1⟩ (by decide)).1
  · exact ((getUser_miss_200_hit_touches_only_lastAccess 42 "u"
      ⟨[("u", ⟨"u", .jstr "N", .jnull, true, true, 1, 1⟩)], [], []⟩ (by decide)).2
      ⟨"u", .jstr "N", .jnull, true, true, 1, 1⟩ (by decide)).2.1

/-- C9.  `getMask` on a (non-empty) `maskId`: a miss answers 404, a hit
answers 200 with the stored record, and in both cases the store state —
including the record's `lastAccessedOn` field — is returned entirely
unchanged. -/
theorem getMask_404_or_record_unchanged (mid : String) (db : DB) (h : mid ≠ "") :
    (getDoc db.masks mid = none → getMask mid db = (.text 404 "Mask not found", db)) ∧
    (∀ m, getDoc db.masks mid = some m → getMask mid db = (.jsonMask 200 m, db)) := by
  constructor
  · intro hnone
    simp [getMask, h, hnone]
  · intro m hm
    simp [getMask, h, hm]

theorem getMask_witness :
    getMask "0" ⟨[], [("0", ⟨0, .jstr "u", .jstr "n", .jstr "", .jarr ["i"], .jarr [],
        "up", .jnum 0, 0, 1, 1, false⟩)], []⟩
      = (.jsonMask 200 ⟨0, .jstr "u", .jstr "n", .jstr "", .jarr ["i"], .jarr [],
        "up", .jnum 0, 0, 1, 1, false⟩,
        ⟨[], [("0", ⟨0, .jstr "u", .jstr "n", .jstr "", .jarr ["i"], .jarr [],
        "up", .jnum 0, 0, 1, 1, false⟩)], []⟩) :=
  (getMask_404_or_record_unchanged "0" _ (by decide)).2 _ (by decide)

/-- C8 counterexample.  The claim says an empty `images` list is rejected
with 400 and nothing is written; at this concrete input (`images` the empty
array, every other field valid, uploader permitted) the handler instead
answers 200 with the new mask id and writes a mask record, because the
source's check `images === "" || images == null` does not match an empty
array. -/
theorem createMask_empty_images_array_accepted :
    (createMask 0 ⟨.jstr "http", .jstr "m", .jnull, .jarr [], .jnull, "u"⟩
      ⟨[("u", ⟨"u", .jstr "N", .jnull, true, true, 0, 0⟩)], [], []⟩).1
      = HResp.jsonMaskId 200 0 ∧
    (createMask 0 ⟨.jstr "http", .jstr "m", .jnull, .jarr [], .jnull, "u"⟩
      ⟨[("u", ⟨"u", .jstr "N", .jnull, true, true, 0, 0⟩)], [], []⟩).2.masks
      ≠ ([] : List (String × MaskDoc)) := by
  constructor
  · rfl
  · decide

/-- C8 (amended).  `createMask` answers 400 exactly when one of `maskUrl`,
`name`, `uploaderGoogleId`, `images` is the empty string or null/missing —
an empty `images` array is not rejected — and whenever it answers 400 the
store is unchanged. -/
theorem createMask_400_iff (now : ℕ) (req : CreateMaskReq) (db : DB) :
    ((createMask now req db).1.status = 400 ↔
      (isEmptyOrNullish req.maskUrl = true ∨ isEmptyOrNullish req.name = true ∨
       req.uploaderGoogleId = "" ∨ isEmptyOrNullish req.images = true)) ∧
    ((createMask now req db).1.status = 400 → (createMask now req db).2 = db) := by
  by_cases h1 : isEmptyOrNullish req.maskUrl
  · simp [createMask, h1, HResp.status]
  by_cases h2 : isEmptyOrNullish req.name
  · simp [createMask, h1, h2, HResp.status]
  by_cases h3 : req.uploaderGoogleId = ""
  · simp [createMask, h1, h2, h3, HResp.status]
  by_cases h4 : isEmptyOrNullish req.images
  · simp [createMask, h1, h2, h3, h4, HResp.status]
  cases hu : getDoc db.users req.uploaderGoogleId with
  | none => simp [createMask, h1, h2, h3, h4, hu, HResp.status]
  | some u =>
    by_cases hcu : u.canUpload
    · simp [createMask, h1, h2, h3, h4, hu, hcu, HResp.status]
    · simp [createMask, h1, h2, h3, h4, hu, hcu, HResp.status]

theorem createMask_400_iff_witness :
    (createMask 0 ⟨.jstr "", .jstr "m", .jnull, .jarr ["i"], .jnull, "u"⟩
      ⟨[], [], []⟩).1.status = 400 ∧
    (createMask 0 ⟨.jstr "", .jstr "m", .jnull, .jarr ["i"], .jnull, "u"⟩
      ⟨[], [], []⟩).2 = ⟨[], [], []⟩ := by
  have h := createMask_400_iff 0 ⟨.jstr "", .jstr "m", .jnull, .jarr ["i"], .jnull, "u"⟩
    ⟨[], [], []⟩
  have h400 := h.1.mpr (Or.inl (by decide))
  exact ⟨h400, h.2 h400⟩

/-- C6.  `getMasks` with an ordering-field value outside the whitelist
(`ratingsCount`, `uploadedOn`, `averageRating`, `maskName`) does not fail:
it answers 200 and behaves exactly as if the field were `ratingsCount`, and
likewise an ordering direction other than `asc`/`desc` behaves exactly as
`desc`. -/
theorem getMasks_invalid_sortBy_falls_back (req : GetMasksReq) (db : DB) (s : String)
    (hs : req.orderBy = some s) (h1 : s ≠ "ratingsCount") (h2 : s ≠ "uploadedOn")
    (h3 : s ≠ "averageRating") (h4 : s ≠ "maskName") :
    (getMasks req db).1.status = 200 ∧
    getMasks req db = getMasks { req with orderBy := some "ratingsCount" } db ∧
    (∀ t, req.orderDirection = some t → t ≠ "asc" → t ≠ "desc" →
      getMasks req db = getMasks { req with orderDirection := some "desc" } db) := by
  have hob : effOrderBy req.orderBy = effOrderBy (some "ratingsCount") := by
    rw [hs]
    simp [effOrderBy, h1, h2, h3, h4]
  refine ⟨rfl, ?_, ?_⟩
  · simp only [getMasks]
    rw [hob]
  · intro t ht h5 h6
    have hdir : effDir req.orderDirection = effDir (some "desc") := by
      rw [ht]
      simp [effDir, h5, h6]
    simp only [getMasks]
    rw [hdir]

theorem getMasks_invalid_sortBy_witness :
    (getMasks ⟨none, some "bogus", some "DOWN", none⟩
      ⟨[], [("0", ⟨0, .jstr "u", .jstr "n", .jstr "", .jarr ["i"], .jarr [],
        "up", .jnum 0, 0, 1, 1, false⟩)], []⟩).1.status = 200 ∧
    getMasks ⟨none, some "bogus", some "DOWN", none⟩
      ⟨[], [("0", ⟨0, .jstr "u", .jstr "n", .jstr "", .jarr ["i"], .jarr [],
        "up", .jnum 0, 0, 1, 1, false⟩)], []⟩
      = getMasks ⟨none, some "ratingsCount", some "DOWN", none⟩
      ⟨[], [("0", ⟨0, .jstr "u", .jstr "n", .jstr "", .jarr ["i"], .jarr [],
        "up", .jnum 0, 0, 1, 1, false⟩)], []⟩ := by
  have h := getMasks_invalid_sortBy_falls_back ⟨none, some "bogus", some "DOWN", none⟩
    ⟨[], [("0", ⟨0, .jstr "u", .jstr "n", .jstr "", .jarr ["i"], .jarr [],
      "up", .jnum 0, 0, 1, 1, false⟩)], []⟩ "bogus" rfl
    (by decide) (by decide) (by decide) (by decide)
  exact ⟨h.1, h.2.1⟩

theorem insertLe_perm (le : α → α → Bool) (a : α) (l : List α) :
    (insertLe le a l).Perm (a :: l) := by
  induction l with
  | nil => exact List.Perm.refl _
  | cons b bs ih =>
    by_cases h : le a b
    · simp [insertLe, h]
    · simp only [insertLe, if_neg h]
      exact (ih.cons b).trans (List.Perm.swap a b bs)

theorem sortLe_perm (le : α → α → Bool) (l : List α) : (sortLe le l).Perm l := by
  induction l with
  | nil => exact List.Perm.refl _
  | cons a as ih => exact (insertLe_perm le a (sortLe le as)).trans (ih.cons a)

theorem insertLe_pairwise (le : α → α → Bool)
    (htrans : ∀ a b c, le a b = true → le b c = true → le a c = true)
    (htot : ∀ a b, le a b = true ∨ le b a = true) (a : α) (l : List α)
    (h : l.Pairwise (fun x y => le x y = true)) :
    (insertLe le a l).Pairwise (fun x y => le x y = true) := by
  induction l with
  | nil => simp [insertLe]
  | cons b bs ih =>
    rcases List.pairwise_cons.mp h with ⟨hb, hbs⟩
    by_cases hab : le a b = true
    · simp only [insertLe, if_pos hab]
      refine List.pairwise_cons.mpr ⟨?_, h⟩
      intro y hy
      rcases List.mem_cons.mp hy with rfl | hy2
      · exact hab
      · exact htrans a b y hab (hb y hy2)
    · simp only [insertLe, if_neg hab]
      refine List.pairwise_cons.mpr ⟨?_, ih hbs⟩
      intro y hy
      have hy3 := (insertLe_perm le a bs).mem_iff.mp hy
      rcases List.mem_cons.mp hy3 with rfl | hy4
      · rcases htot y b with h1 | h1
        · exact absurd h1 hab
        · exact h1
      · exact hb y hy4

theorem sortLe_pairwise (le : α → α → Bool)
    (htrans : ∀ a b c, le a b = true → le b c = true → le a c = true)
    (htot : ∀ a b, le a b = true ∨ le b a = true) (l : List α) :
    (sortLe le l).Pairwise (fun x y => le x y = true) := by
  induction l with
  | nil => simp [sortLe]
  | cons a as ih => exact insertLe_pairwise le htrans htot a _ ih

theorem foldl_nextIdStep_ge (l : List ℕ) : ∀ a : ℕ, a ≤ l.foldl nextIdStep a := by
  induction l with
  | nil => intro a; exact le_refl a
  | cons x xs ih =>
    intro a
    refine le_trans ?_ (ih (nextIdStep a x))
    unfold nextIdStep
    by_cases h : x = a <;> simp [h]

theorem foldl_nextIdStep_shape (l : List ℕ) : ∀ a : ℕ,
    l.foldl nextIdStep a = a ∨ ∃ y ∈ l, l.foldl nextIdStep a = y + 1 := by
  induction l with
  | nil => intro a; exact Or.inl rfl
  | cons x xs ih =>
    intro a
    rcases ih (nextIdStep a x) with h | ⟨y, hy, h⟩
    · by_cases hx : x = a
      · refine Or.inr ⟨x, List.mem_cons_self x xs, ?_⟩
        rw [List.foldl_cons, h]
        unfold nextIdStep
        simp [hx]
      · refine Or.inl ?_
        rw [List.foldl_cons, h]
        unfold nextIdStep
        simp [hx]
    · exact Or.inr ⟨y, List.mem_cons_of_mem x hy, by rw [List.foldl_cons]; exact h⟩

theorem foldl_nextIdStep_spec (l : List ℕ) : ∀ a : ℕ,
    l.Pairwise (· < ·) → (∀ x ∈ l, a ≤ x) →
    (l.foldl nextIdStep a ∉ l ∧ ∀ k, a ≤ k → k < l.foldl nextIdStep a → k ∈ l) := by
  induction l with
  | nil =>
    intro a _ _
    refine ⟨List.not_mem_nil _, ?_⟩
    intro k hak hk
    rw [List.foldl_nil] at hk
    exact absurd hak (not_le.mpr hk)
  | cons x xs ih =>
    intro a hs hge
    rcases List.pairwise_cons.mp hs with ⟨hlt, hxs⟩
    have hx : a ≤ x := hge x (List.mem_cons_self x xs)
    by_cases hxa : x = a
    · have hstep : List.foldl nextIdStep a (x :: xs) = List.foldl nextIdStep (a + 1) xs := by
        rw [List.foldl_cons]
        unfold nextIdStep
        simp [hxa]
      have hge2 : ∀ y ∈ xs, a + 1 ≤ y := by
        intro y hy
        have := hlt y hy
        omega
      obtain ⟨hnot, hmem⟩ := ih (a + 1) hxs hge2
      rw [hstep]
      constructor
      · intro hin
        rcases List.mem_cons.mp hin with heq | hin2
        · have hge3 := foldl_nextIdStep_ge xs (a + 1)
          omega
        · exact hnot hin2
      · intro k hak hk
        rcases Nat.eq_or_lt_of_le hak with heq | hlt2
        · rw [← heq, hxa]
          exact List.mem_cons_self a xs
        · exact List.mem_cons_of_mem x (hmem k hlt2 hk)
    · have hax : a < x := lt_of_le_of_ne hx (fun h => hxa h.symm)
      have hstep : List.foldl nextIdStep a (x :: xs) = List.foldl nextIdStep a xs := by
        rw [List.foldl_cons]
        unfold nextIdStep
        simp [hxa]
      have hge2 : ∀ y ∈ xs, a ≤ y := by
        intro y hy
        have := hlt y hy
        omega
      obtain ⟨hnot, hmem⟩ := ih a hxs hge2
      rw [hstep]
      have hrle : List.foldl nextIdStep a xs ≤ x := by
        by_contra hc
        push_neg at hc
        have hmemx := hmem x hx hc
        exact absurd (hlt x hmemx) (lt_irrefl x)
      constructor
      · intro hin
        rcases List.mem_cons.mp hin with heq | hin2
        · rcases foldl_nextIdStep_shape xs a with h0 | ⟨y, hy, h0⟩
          · omega
          · have := hlt y hy
            omega
        · exact hnot hin2
      · intro k hak hk
        exact List.mem_cons_of_mem x (hmem k hak hk)

theorem nextIdScan_spec (l : List ℕ) (h : l.Pairwise (· < ·)) :
    nextIdScan l ∉ l ∧ ∀ k, k < nextIdScan l → k ∈ l := by
  obtain ⟨h1, h2⟩ := foldl_nextIdStep_spec l 0 h (fun x _ => Nat.zero_le x)
  exact ⟨h1, fun k hk => h2 k (Nat.zero_le k) hk⟩

theorem masksOrderedById_ids_pairwise_le (db : DB) :
    ((masksOrderedById db).map (fun m => m.id)).Pairwise (· ≤ ·) := by
  have h0 := sortLe_pairwise (fun a b : MaskDoc => decide (a.id ≤ b.id))
    (fun a b c hab hbc => by
      simp only [decide_eq_true_eq] at hab hbc ⊢
      omega)
    (fun a b => by
      simp only [decide_eq_true_eq]
      omega)
    (db.masks.map (fun p => p.2))
  exact List.Pairwise.map _ (fun a b h => of_decide_eq_true h) h0

theorem masksOrderedById_ids_perm (db : DB) :
    ((masksOrderedById db).map (fun m => m.id)).Perm (db.masks.map (fun p => p.2.id)) := by
  have hp1 := (sortLe_perm (fun a b : MaskDoc => decide (a.id ≤ b.id))
    (db.masks.map (fun p => p.2))).map (fun m : MaskDoc => m.id)
  simpa [List.map_map, Function.comp] using hp1

/-- C2.  Whenever `createMask` succeeds with mask id `n` on a store whose
mask ids are pairwise distinct, `n` is the smallest non-negative integer not
already used as a mask id: `n` is not among the existing ids, and every
integer below `n` is. -/
theorem createMask_assigns_smallest_free_id (now : ℕ) (req : CreateMaskReq)
    (db : DB) (n : ℕ)
    (hnd : (db.masks.map (fun p => p.2.id)).Nodup)
    (hr : (createMask now req db).1 = HResp.jsonMaskId 200 n) :
    n ∉ db.masks.map (fun p => p.2.id) ∧
    ∀ k, k < n → k ∈ db.masks.map (fun p => p.2.id) := by
  have hperm := masksOrderedById_ids_perm db
  have hle := masksOrderedById_ids_pairwise_le db
  have hnodup : ((masksOrderedById db).map (fun m => m.id)).Nodup :=
    hperm.nodup_iff.mpr hnd
  have hlt : ((masksOrderedById db).map (fun m => m.id)).Pairwise (· < ·) :=
    (hle.and hnodup).imp (fun h => lt_of_le_of_ne h.1 h.2)
  obtain ⟨hna, hall⟩ := nextIdScan_spec _ hlt
  have hn : nextIdScan ((masksOrderedById db).map (fun m => m.id)) = n := by
    by_cases h1 : isEmptyOrNullish req.maskUrl
    · simp [createMask, h1] at hr
    by_cases h2 : isEmptyOrNullish req.name
    · simp [createMask, h1, h2] at hr
    by_cases h3 : req.uploaderGoogleId = ""
    · simp [createMask, h1, h2, h3] at hr
    by_cases h4 : isEmptyOrNullish req.images
    · simp [createMask, h1, h2, h3, h4] at hr
    cases hu : getDoc db.users req.uploaderGoogleId with
    | none => simp [createMask, h1, h2, h3, h4, hu] at hr
    | some u =>
      by_cases hcu : u.canUpload
      · simpa [createMask, h1, h2, h3, h4, hu, hcu] using hr
      · simp [createMask, h1, h2, h3, h4, hu, hcu] at hr
  rw [← hn]
  constructor
  · intro hmem
    exact hna (hperm.mem_iff.mpr hmem)
  · intro k hk
    exact hperm.mem_iff.mp (hall k hk)

theorem createMask_smallest_free_id_witness :
    (2 : ℕ) ∉ ([0, 1, 3] : List ℕ) ∧ ∀ k : ℕ, k < 2 → k ∈ ([0, 1, 3] : List ℕ) :=
  createMask_assigns_smallest_free_id 7
    ⟨.jstr "h", .jstr "m", .jnull, .jarr ["i"], .jnull, "u"⟩
    ⟨[("u", ⟨"u", .jstr "N", .jnull, true, true, 0, 0⟩)],
     [("0", ⟨0, .jstr "u", .jstr "n", .jstr "", .jarr ["i"], .jarr [], "u", .jnum 0, 0, 1, 1, false⟩),
      ("1", ⟨1, .jstr "u", .jstr "n", .jstr "", .jarr ["i"], .jarr [], "u", .jnum 0, 0, 1, 1, false⟩),
      ("3", ⟨3, .jstr "u", .jstr "n", .jstr "", .jarr ["i"], .jarr [], "u", .jnum 0, 0, 1, 1, false⟩)],
     []⟩ 2 (by decide) (by decide)

theorem head?_mem (l : List α) (x : α) (h : l.head? = some x) : x ∈ l := by
  cases l with
  | nil => simp at h
  | cons a t =>
    have : a = x := by simpa using h
    rw [← this]
    exact List.mem_cons_self a t

theorem setDoc_decomp (l : List (String × α)) (k : String) (r0 v : α)
    (h : getDoc l k = some r0) :
    ∃ l1 l2, l = l1 ++ (k, r0) :: l2 ∧ (∀ p ∈ l1, p.1 ≠ k) ∧
      setDoc l k v = l1 ++ (k, v) :: l2 := by
  induction l with
  | nil => simp [getDoc_nil] at h
  | cons p t ih =>
    by_cases hp : (p.1 == k) = true
    · have hp2 : p.1 = k := by simpa using hp
      rw [getDoc_cons, if_pos hp] at h
      have hr : p.2 = r0 := by simpa using h
      refine ⟨[], t, ?_, by simp, ?_⟩
      · rw [List.nil_append]
        cases p with
        | mk a b =>
          simp only at hp2 hr
          rw [hp2, hr]
      · simp [setDoc, hp]
    · rw [getDoc_cons, if_neg hp] at h
      obtain ⟨l1, l2, he, hn, hs2⟩ := ih h
      refine ⟨p :: l1, l2, by rw [List.cons_append, ← he], ?_, ?_⟩
      · intro q hq
        rcases List.mem_cons.mp hq with rfl | hq2
        · simpa using hp
        · exact hn q hq2
      · simp only [setDoc, hp]
        rw [hs2]
        simp

theorem getDoc_eq_of_mem_nodup (l : List (String × α)) (k : String) (v : α)
    (hnd : (l.map Prod.fst).Nodup) (hm : (k, v) ∈ l) : getDoc l k = some v := by
  induction l with
  | nil => simp at hm
  | cons p t ih =>
    rw [List.map_cons, List.nodup_cons] at hnd
    rcases List.mem_cons.mp hm with heq | hm2
    · rw [← heq, getDoc_cons]
      simp
    · rw [getDoc_cons]
      have hpk : p.1 ≠ k := by
        intro he
        exact hnd.1 (by rw [he]; exact List.mem_map_of_mem Prod.fst hm2)
      rw [if_neg (by simpa using hpk)]
      exact ih hnd.2 hm2

theorem filter_pair_singleton (l : List (String × RatingDoc)) (m g : String)
    (hnd : (l.map (fun p => (p.2.maskId, p.2.googleId))).Nodup) (x : String × RatingDoc)
    (hh : (l.filter (fun p => p.2.maskId == m && p.2.googleId == g)).head? = some x) :
    l.filter (fun p => p.2.maskId == m && p.2.googleId == g) = [x] := by
  induction l with
  | nil => simp at hh
  | cons p t ih =>
    rw [List.map_cons, List.nodup_cons] at hnd
    by_cases hp : (p.2.maskId == m && p.2.googleId == g) = true
    · rw [List.filter_cons, if_pos hp] at hh ⊢
      have hx : p = x := by simpa using hh
      have hft : t.filter (fun q => q.2.maskId == m && q.2.googleId == g) = [] := by
        rw [List.filter_eq_nil_iff]
        intro q hq hqp
        apply hnd.1
        have hqm : q.2.maskId = m ∧ q.2.googleId = g := by
          simpa using hqp
        have hpm : p.2.maskId = m ∧ p.2.googleId = g := by
          simpa using hp
        rw [hpm.1, hpm.2, ← hqm.1, ← hqm.2]
        exact List.mem_map_of_mem _ hq
      rw [hft, hx]
    · rw [List.filter_cons, if_neg hp] at hh ⊢
      exact ih hnd.2 hh

theorem jsAdd_jnum (a b : ℚ) : jsAdd (.jnum a) (.jnum b) = .jnum (a + b) := rfl

theorem jsDivNat_jnum (s : ℚ) (n : ℕ) :
    jsDivNat (.jnum s) (n + 1) = .jnum (s / ((n : ℚ) + 1)) := rfl

theorem foldl_jsAdd_nums (rows : List (String × RatingDoc)) :
    ∀ (qs : List ℚ) (a : ℚ), numRatings rows = some qs →
    rows.foldl (fun acc p => jsAdd acc p.2.rating) (.jnum a) = .jnum (a + qs.sum) := by
  induction rows with
  | nil =>
    intro qs a h
    have : qs = [] := by simpa [numRatings] using h.symm
    simp [this]
  | cons p t ih =>
    intro qs a h
    cases hr : p.2.rating with
    | jnum q =>
      cases ht : numRatings t with
      | none => rw [numRatings, hr, ht] at h; exact absurd h (by simp)
      | some qt =>
        rw [numRatings, hr, ht] at h
        have hq : qs = q :: qt := by simpa using h.symm
        rw [List.foldl_cons, hr, jsAdd_jnum, ih qt (a + q) ht, hq]
        rw [List.sum_cons]
        ring_nf
    | jnull => rw [numRatings, hr] at h; exact absurd h (by simp)
    | jundef => rw [numRatings, hr] at h; exact absurd h (by simp)
    | jbool b => rw [numRatings, hr] at h; exact absurd h (by simp)
    | jnan => rw [numRatings, hr] at h; exact absurd h (by simp)
    | jstr s => rw [numRatings, hr] at h; exact absurd h (by simp)
    | jarr xs => rw [numRatings, hr] at h; exact absurd h (by simp)

theorem numRatings_length (rows : List (String × RatingDoc)) :
    ∀ qs : List ℚ, numRatings rows = some qs → rows.length = qs.length := by
  induction rows with
  | nil =>
    intro qs h
    have : qs = [] := by simpa [numRatings] using h.symm
    simp [this]
  | cons p t ih =>
    intro qs h
    cases hr : p.2.rating with
    | jnum q =>
      cases ht : numRatings t with
      | none => rw [numRatings, hr, ht] at h; exact absurd h (by simp)
      | some qt =>
        rw [numRatings, hr, ht] at h
        have hq : qs = q :: qt := by simpa using h.symm
        rw [hq]
        simp [ih qt ht]
    | jnull => rw [numRatings, hr] at h; exact absurd h (by simp)
    | jundef => rw [numRatings, hr] at h; exact absurd h (by simp)
    | jbool b => rw [numRatings, hr] at h; exact absurd h (by simp)
    | jnan => rw [numRatings, hr] at h; exact absurd h (by simp)
    | jstr s => rw [numRatings, hr] at h; exact absurd h (by simp)
    | jarr xs => rw [numRatings, hr] at h; exact absurd h (by simp)

theorem recomputedAverage_nums (rows : List (String × RatingDoc)) (qs : List ℚ)
    (h : numRatings rows = some qs) (hne : rows ≠ []) :
    recomputedAverage rows = .jnum (qs.sum / (qs.length : ℚ)) := by
  have hlen := numRatings_length rows qs h
  cases qs with
  | nil =>
    exact absurd (List.length_eq_zero.mp (by simpa using hlen)) hne
  | cons q qt =>
    rw [recomputedAverage, foldl_jsAdd_nums rows (q :: qt) 0 h, hlen]
    show jsDivNat (.jnum (0 + (q :: qt).sum)) (qt.length + 1) = _
    rw [jsDivNat_jnum]
    congr 1
    rw [zero_add, List.length_cons]
    push_cast
    ring

theorem postRating_success_inv (now : ℕ) (nk m g : String) (v : JSVal) (db : DB)
    (hs : (postRating now nk m g v db).1 = HResp.jsonOk 200) :
    m ≠ "" ∧ g ≠ "" ∧ isEmptyOrNullish v = false ∧
    (∃ md, getDoc db.masks m = some md) ∧
    (∃ u, getDoc db.users g = some u ∧ u.canComment = true) ∧
    (postRating now nk m g v db).2 = postRatingWrite now nk m g v db := by
  by_cases h1 : m = ""
  · simp [postRating, h1] at hs
  by_cases h2 : g = ""
  · simp [postRating, h1, h2] at hs
  by_cases h3 : isEmptyOrNullish v
  · simp [postRating, h1, h2, h3] at hs
  cases hm : getDoc db.masks m with
  | none => simp [postRating, h1, h2, h3, hm] at hs
  | some md =>
    cases hu : getDoc db.users g with
    | none => simp [postRating, h1, h2, h3, hm, hu] at hs
    | some u =>
      by_cases hcc : u.canComment
      · refine ⟨h1, h2, by simpa using h3, ⟨md, rfl⟩, ⟨u, rfl, by simpa using hcc⟩, ?_⟩
        simp [postRating, h1, h2, h3, hm, hu, hcc]
      · simp [postRating, h1, h2, h3, hm, hu, hcc] at hs

theorem postRating_success_eq (now : ℕ) (nk m g : String) (v : JSVal) (db : DB)
    (md : MaskDoc) (u : UserDoc)
    (h1 : m ≠ "") (h2 : g ≠ "") (h3 : isEmptyOrNullish v = false)
    (hm : getDoc db.masks m = some md) (hu : getDoc db.users g = some u)
    (hcc : u.canComment = true) :
    postRating now nk m g v db = (HResp.jsonOk 200, postRatingWrite now nk m g v db) := by
  simp [postRating, h1, h2, h3, hm, hu, hcc]

theorem ratingUpsert_users (now : ℕ) (nk m g : String) (v : JSVal) (db : DB) :
    (ratingUpsert now nk m g v db).users = db.users := by
  cases hh : (pairRows db m g).head? with
  | some x =>
    obtain ⟨k, r⟩ := x
    simp [ratingUpsert, hh]
  | none => simp [ratingUpsert, hh]

theorem ratingUpsert_masks (now : ℕ) (nk m g : String) (v : JSVal) (db : DB) :
    (ratingUpsert now nk m g v db).masks = db.masks := by
  cases hh : (pairRows db m g).head? with
  | some x =>
    obtain ⟨k, r⟩ := x
    simp [ratingUpsert, hh]
  | none => simp [ratingUpsert, hh]

theorem maskAggregateUpdate_ratings (m : String) (db1 : DB) :
    (maskAggregateUpdate m db1).ratings = db1.ratings := by
  cases hh : getDoc db1.masks m with
  | some mm => simp [maskAggregateUpdate, hh]
  | none => simp [maskAggregateUpdate, hh]

theorem maskAggregateUpdate_users (m : String) (db1 : DB) :
    (maskAggregateUpdate m db1).users = db1.users := by
  cases hh : getDoc db1.masks m with
  | some mm => simp [maskAggregateUpdate, hh]
  | none => simp [maskAggregateUpdate, hh]

theorem maskAggregateUpdate_getDoc (m : String) (db1 : DB) (md : MaskDoc)
    (hm : getDoc db1.masks m = some md) :
    getDoc (maskAggregateUpdate m db1).masks m =
      some { md with averageRating := recomputedAverage (maskRows db1 m),
                     ratingsCount := (maskRows db1 m).length } := by
  simp only [maskAggregateUpdate, hm]
  exact getDoc_setDoc_self _ _ _

theorem pairRows_eq_of_ratings (dbA dbB : DB) (h : dbA.ratings = dbB.ratings)
    (m g : String) : pairRows dbA m g = pairRows dbB m g := by
  simp only [pairRows, h]

theorem maskRows_eq_of_ratings (dbA dbB : DB) (h : dbA.ratings = dbB.ratings)
    (m : String) : maskRows dbA m = maskRows dbB m := by
  simp only [maskRows, h]

theorem ratingUpsert_mem_row (now : ℕ) (nk m g : String) (v : JSVal) (db : DB) :
    ∃ kk, (kk, ({ maskId := m, googleId := g, rating := v, postedOn := now } : RatingDoc)) ∈
      (ratingUpsert now nk m g v db).ratings := by
  cases hh : (pairRows db m g).head? with
  | some x =>
    obtain ⟨k0, r0⟩ := x
    have hmem0 : (k0, r0) ∈ pairRows db m g := head?_mem _ _ hh
    have hpred := (List.mem_filter.mp hmem0).2
    simp only [Bool.and_eq_true, beq_iff_eq] at hpred
    refine ⟨k0, ?_⟩
    have hrow : ({ r0 with rating := v, postedOn := now } : RatingDoc)
        = { maskId := m, googleId := g, rating := v, postedOn := now } := by
      obtain ⟨a, b, c, d⟩ := r0
      simp only [RatingDoc.mk.injEq, and_true]
      exact ⟨hpred.1, hpred.2⟩
    simp only [ratingUpsert, hh]
    rw [← hrow]
    exact setDoc_mem db.ratings k0 _
  | none =>
    refine ⟨nk, ?_⟩
    simp only [ratingUpsert, hh]
    simp

theorem ratingUpsert_maskRows_ne_nil (now : ℕ) (nk m g : String) (v : JSVal)
    (db : DB) : maskRows (ratingUpsert now nk m g v db) m ≠ [] := by
  obtain ⟨kk, hmem⟩ := ratingUpsert_mem_row now nk m g v db
  intro hempty
  have hin : (kk, ({ maskId := m, googleId := g, rating := v, postedOn := now } : RatingDoc)) ∈
      maskRows (ratingUpsert now nk m g v db) m :=
    List.mem_filter.mpr ⟨hmem, by simp⟩
  rw [hempty] at hin
  simp at hin

theorem ratingUpsert_pairRows (now : ℕ) (nk m g : String) (v : JSVal) (db : DB)
    (hkeys : (db.ratings.map Prod.fst).Nodup)
    (hpair : (db.ratings.map (fun p => (p.2.maskId, p.2.googleId))).Nodup)
    (hfresh : pairRows db m g = [] → nk ∉ db.ratings.map Prod.fst) :
    ∃ kk, pairRows (ratingUpsert now nk m g v db) m g
        = [(kk, { maskId := m, googleId := g, rating := v, postedOn := now })] ∧
      ((ratingUpsert now nk m g v db).ratings.map Prod.fst).Nodup ∧
      ((ratingUpsert now nk m g v db).ratings.map
        (fun p => (p.2.maskId, p.2.googleId))).Nodup := by
  cases hh : (pairRows db m g).head? with
  | none =>
    have hemp : pairRows db m g = [] := by
      cases hpr : pairRows db m g with
      | nil => rfl
      | cons a t => rw [hpr] at hh; simp at hh
    have hfr := hfresh hemp
    have hru : (ratingUpsert now nk m g v db).ratings
        = db.ratings ++ [(nk, { maskId := m, googleId := g, rating := v, postedOn := now })] := by
      simp only [ratingUpsert, hh]
    refine ⟨nk, ?_, ?_, ?_⟩
    · show (ratingUpsert now nk m g v db).ratings.filter
        (fun p => p.2.maskId == m && p.2.googleId == g) = _
      rw [hru, List.filter_append]
      have hemp2 : db.ratings.filter
          (fun p => p.2.maskId == m && p.2.googleId == g) = [] := hemp
      rw [hemp2]
      simp
    · rw [hru, List.map_append]
      refine List.Nodup.append hkeys (by simp) ?_
      intro a ha hb
      simp only [List.map_cons, List.map_nil, List.mem_singleton] at hb
      rw [hb] at ha
      exact hfr ha
    · rw [hru, List.map_append]
      refine List.Nodup.append hpair (by simp) ?_
      intro a ha hb
      simp only [List.map_cons, List.map_nil, List.mem_singleton] at hb
      rw [hb] at ha
      obtain ⟨p, hp, hpa⟩ := List.mem_map.mp ha
      have hinp : p ∈ pairRows db m g := by
        refine List.mem_filter.mpr ⟨hp, ?_⟩
        have hq1 : p.2.maskId = m := congrArg Prod.fst hpa
        have hq2 : p.2.googleId = g := congrArg Prod.snd hpa
        simp [hq1, hq2]
      rw [hemp] at hinp
      simp at hinp
  | some x =>
    obtain ⟨k0, r0⟩ := x
    have hsing : db.ratings.filter (fun p => p.2.maskId == m && p.2.googleId == g)
        = [(k0, r0)] := filter_pair_singleton db.ratings m g hpair (k0, r0) hh
    have hmemf : (k0, r0) ∈ db.ratings.filter
        (fun p => p.2.maskId == m && p.2.googleId == g) := by
      rw [hsing]
      exact List.mem_cons_self _ _
    have hmem0 : (k0, r0) ∈ db.ratings := (List.mem_filter.mp hmemf).1
    have hpred := (List.mem_filter.mp hmemf).2
    simp only [Bool.and_eq_true, beq_iff_eq] at hpred
    have hget : getDoc db.ratings k0 = some r0 :=
      getDoc_eq_of_mem_nodup _ _ _ hkeys hmem0
    obtain ⟨l1, l2, he, hn1, hs2⟩ :=
      setDoc_decomp db.ratings k0 r0 ({ r0 with rating := v, postedOn := now }) hget
    have hrow : ({ r0 with rating := v, postedOn := now } : RatingDoc)
        = { maskId := m, googleId := g, rating := v, postedOn := now } := by
      obtain ⟨a, b, c, d⟩ := r0
      simp only [RatingDoc.mk.injEq, and_true]
      exact ⟨hpred.1, hpred.2⟩
    have hru : (ratingUpsert now nk m g v db).ratings
        = l1 ++ (k0, ({ maskId := m, googleId := g, rating := v, postedOn := now } : RatingDoc)) :: l2 := by
      simp only [ratingUpsert, hh]
      rw [hs2, hrow]
    have hpredb : ((k0, r0).2.maskId == m && (k0, r0).2.googleId == g) = true := by
      simp [hpred.1, hpred.2]
    have hthis := hsing
    rw [he, List.filter_append, List.filter_cons, if_pos hpredb] at hthis
    have hlen := congrArg List.length hthis
    simp only [List.length_append, List.length_cons, List.length_nil,
      List.length_singleton] at hlen
    have hfl1 : l1.filter (fun p => p.2.maskId == m && p.2.googleId == g) = [] :=
      List.length_eq_zero.mp (by omega)
    have hfl2 : l2.filter (fun p => p.2.maskId == m && p.2.googleId == g) = [] :=
      List.length_eq_zero.mp (by omega)
    refine ⟨k0, ?_, ?_, ?_⟩
    · show (ratingUpsert now nk m g v db).ratings.filter
        (fun p => p.2.maskId == m && p.2.googleId == g) = _
      rw [hru, List.filter_append, List.filter_cons]
      simp [hfl1, hfl2]
    · have h2 : db.ratings.map Prod.fst
          = l1.map Prod.fst ++ k0 :: l2.map Prod.fst := by
        rw [he, List.map_append, List.map_cons]
      rw [hru, List.map_append, List.map_cons]
      rw [h2] at hkeys
      exact hkeys
    · have h2 : db.ratings.map (fun p => (p.2.maskId, p.2.googleId))
          = l1.map (fun p => (p.2.maskId, p.2.googleId)) ++
            (m, g) :: l2.map (fun p => (p.2.maskId, p.2.googleId)) := by
        rw [he, List.map_append, List.map_cons]
        simp [hpred.1, hpred.2]
      rw [hru, List.map_append, List.map_cons]
      rw [h2] at hpair
      exact hpair

theorem postRatingWrite_spec (now : ℕ) (nk m g : String) (v : JSVal) (db : DB)
    (md : MaskDoc) (hm : getDoc db.masks m = some md)
    (hkeys : (db.ratings.map Prod.fst).Nodup)
    (hpair : (db.ratings.map (fun p => (p.2.maskId, p.2.googleId))).Nodup)
    (hfresh : pairRows db m g = [] → nk ∉ db.ratings.map Prod.fst) :
    ∃ kk, pairRows (postRatingWrite now nk m g v db) m g
        = [(kk, { maskId := m, googleId := g, rating := v, postedOn := now })] ∧
      ((postRatingWrite now nk m g v db).ratings.map Prod.fst).Nodup ∧
      ((postRatingWrite now nk m g v db).ratings.map
        (fun p => (p.2.maskId, p.2.googleId))).Nodup ∧
      (postRatingWrite now nk m g v db).users = db.users ∧
      getDoc (postRatingWrite now nk m g v db).masks m = some
        { md with
          averageRating := recomputedAverage (maskRows (postRatingWrite now nk m g v db) m),
          ratingsCount := (maskRows (postRatingWrite now nk m g v db) m).length } ∧
      maskRows (postRatingWrite now nk m g v db) m ≠ [] := by
  obtain ⟨kk, hpr, hk2, hp2⟩ := ratingUpsert_pairRows now nk m g v db hkeys hpair hfresh
  have hrat : (postRatingWrite now nk m g v db).ratings
      = (ratingUpsert now nk m g v db).ratings :=
    maskAggregateUpdate_ratings m _
  have hmrows : maskRows (postRatingWrite now nk m g v db) m
      = maskRows (ratingUpsert now nk m g v db) m :=
    maskRows_eq_of_ratings _ _ hrat m
  have hprows : pairRows (postRatingWrite now nk m g v db) m g
      = pairRows (ratingUpsert now nk m g v db) m g :=
    pairRows_eq_of_ratings _ _ hrat m g
  have hm1 : getDoc (ratingUpsert now nk m g v db).masks m = some md := by
    rw [ratingUpsert_masks]
    exact hm
  refine ⟨kk, ?_, ?_, ?_, ?_, ?_, ?_⟩
  · rw [hprows]
    exact hpr
  · rw [hrat]
    exact hk2
  · rw [hrat]
    exact hp2
  · exact (maskAggregateUpdate_users m _).trans (ratingUpsert_users now nk m g v db)
  · rw [hmrows]
    exact maskAggregateUpdate_getDoc m (ratingUpsert now nk m g v db) md hm1
  · rw [hmrows]
    exact ratingUpsert_maskRows_ne_nil now nk m g v db

/-- C4.  After a successful `postRating` call whose resulting rating rows for
the mask are all numeric, the mask's stored `ratingsCount` equals the number
of rating rows referencing the mask and its stored `averageRating` equals
the arithmetic mean of those rows' rating values. -/
theorem postRating_aggregates_are_mean_and_count (now : ℕ) (nk m g : String)
    (v : JSVal) (db : DB) (qs : List ℚ)
    (hs : (postRating now nk m g v db).1 = HResp.jsonOk 200)
    (hnum : numRatings (maskRows (postRating now nk m g v db).2 m) = some qs) :
    ∃ md2, getDoc (postRating now nk m g v db).2.masks m = some md2 ∧
      md2.ratingsCount = (maskRows (postRating now nk m g v db).2 m).length ∧
      (maskRows (postRating now nk m g v db).2 m).length = qs.length ∧
      md2.averageRating = .jnum (qs.sum / (qs.length : ℚ)) := by
  obtain ⟨h1, h2, h3, ⟨md, hm⟩, ⟨u, hu, hcc⟩, hdb2⟩ :=
    postRating_success_inv now nk m g v db hs
  rw [hdb2] at hnum ⊢
  have hrat : (postRatingWrite now nk m g v db).ratings
      = (ratingUpsert now nk m g v db).ratings :=
    maskAggregateUpdate_ratings m _
  have hmrows : maskRows (postRatingWrite now nk m g v db) m
      = maskRows (ratingUpsert now nk m g v db) m :=
    maskRows_eq_of_ratings _ _ hrat m
  have hm1 : getDoc (ratingUpsert now nk m g v db).masks m = some md := by
    rw [ratingUpsert_masks]
    exact hm
  have hget := maskAggregateUpdate_getDoc m (ratingUpsert now nk m g v db) md hm1
  have hne := ratingUpsert_maskRows_ne_nil now nk m g v db
  rw [hmrows] at hnum
  have havg := recomputedAverage_nums _ qs hnum hne
  have hlen := numRatings_length _ qs hnum
  refine ⟨_, hget, ?_, ?_, ?_⟩
  · rw [hmrows]
  · rw [hmrows]
    exact hlen
  · exact havg

theorem postRating_aggregates_witness :
    ∃ md2, getDoc (postRating 5 "r1" "0" "g" (.jnum 4)
      ⟨[("g", ⟨"g", .jstr "N", .jnull, true, true, 0, 0⟩)],
       [("0", ⟨0, .jstr "u", .jstr "n", .jstr "", .jarr ["i"], .jarr [],
        "g", .jnum 0, 0, 1, 1, false⟩)], []⟩).2.masks "0" = some md2 ∧
      md2.ratingsCount = (maskRows (postRating 5 "r1" "0" "g" (.jnum 4)
      ⟨[("g", ⟨"g", .jstr "N", .jnull, true, true, 0, 0⟩)],
       [("0", ⟨0, .jstr "u", .jstr "n", .jstr "", .jarr ["i"], .jarr [],
        "g", .jnum 0, 0, 1, 1, false⟩)], []⟩).2 "0").length ∧
      (maskRows (postRating 5 "r1" "0" "g" (.jnum 4)
      ⟨[("g", ⟨"g", .jstr "N", .jnull, true, true, 0, 0⟩)],
       [("0", ⟨0, .jstr "u", .jstr "n", .jstr "", .jarr ["i"], .jarr [],
        "g", .jnum 0, 0, 1, 1, false⟩)], []⟩).2 "0").length = ([(4 : ℚ)]).length ∧
      md2.averageRating = .jnum (([(4 : ℚ)]).sum / ((([(4 : ℚ)]).length : ℕ) : ℚ)) :=
  postRating_aggregates_are_mean_and_count 5 "r1" "0" "g" (.jnum 4)
    ⟨[("g", ⟨"g", .jstr "N", .jnull, true, true, 0, 0⟩)],
     [("0", ⟨0, .jstr "u", .jstr "n", .jstr "", .jarr ["i"], .jarr [],
      "g", .jnum 0, 0, 1, 1, false⟩)], []⟩ [4] (by decide) (by decide)

/-- C10.  `postRating` applies no range or type validation to the rating
value: for any value other than the empty string and the null-like values,
with an existing mask and a permitted user (and well-formed store keys and
at most one rating row per pair), the call answers 200, the single rating
row for the pair stores the value verbatim, the value itself feeds the
recomputed aggregate, and the mask's `averageRating` and `ratingsCount` are
whatever the recomputation over those rows yields. -/
theorem postRating_accepts_any_nonempty_rating (now : ℕ) (nk m g : String)
    (v : JSVal) (db : DB) (md : MaskDoc) (u : UserDoc)
    (h1 : m ≠ "") (h2 : g ≠ "")
    (hv1 : v ≠ .jstr "") (hv2 : v ≠ .jnull) (hv3 : v ≠ .jundef)
    (hm : getDoc db.masks m = some md) (hu : getDoc db.users g = some u)
    (hcc : u.canComment = true)
    (hkeys : (db.ratings.map Prod.fst).Nodup)
    (hpair : (db.ratings.map (fun p => (p.2.maskId, p.2.googleId))).Nodup)
    (hfresh : nk ∉ db.ratings.map Prod.fst) :
    (postRating now nk m g v db).1 = HResp.jsonOk 200 ∧
    (pairRows (postRating now nk m g v db).2 m g).map (fun p => p.2.rating) = [v] ∧
    v ∈ (maskRows (postRating now nk m g v db).2 m).map (fun p => p.2.rating) ∧
    ∃ md2, getDoc (postRating now nk m g v db).2.masks m = some md2 ∧
      md2.averageRating = recomputedAverage (maskRows (postRating now nk m g v db).2 m) ∧
      md2.ratingsCount = (maskRows (postRating now nk m g v db).2 m).length := by
  have h3 : isEmptyOrNullish v = false := by
    simp only [isEmptyOrNullish, Bool.or_eq_false_iff, beq_eq_false_iff_ne]
    refine ⟨hv1, ?_⟩
    cases v <;> first
      | rfl
      | exact absurd rfl hv2
      | exact absurd rfl hv3
  have hse := postRating_success_eq now nk m g v db md u h1 h2 h3 hm hu hcc
  obtain ⟨kk, hpr, hk2, hp2, hus, hget, hne⟩ :=
    postRatingWrite_spec now nk m g v db md hm hkeys hpair (fun _ => hfresh)
  rw [hse]
  refine ⟨rfl, ?_, ?_, ?_⟩
  · show (pairRows (postRatingWrite now nk m g v db) m g).map (fun p => p.2.rating) = [v]
    rw [hpr]
    rfl
  · show v ∈ (maskRows (postRatingWrite now nk m g v db) m).map (fun p => p.2.rating)
    have hmem1 : (kk, ({ maskId := m, googleId := g, rating := v, postedOn := now } : RatingDoc))
        ∈ pairRows (postRatingWrite now nk m g v db) m g := by
      rw [hpr]
      exact List.mem_cons_self _ _
    have hmem2 := (List.mem_filter.mp hmem1).1
    have hmem3 : (kk, ({ maskId := m, googleId := g, rating := v, postedOn := now } : RatingDoc))
        ∈ maskRows (postRatingWrite now nk m g v db) m :=
      List.mem_filter.mpr ⟨hmem2, by simp⟩
    exact List.mem_map.mpr ⟨_, hmem3, rfl⟩
  · exact ⟨_, hget, rfl, rfl⟩

theorem postRating_accepts_any_rating_witness :
    (postRating 9 "r1" "0" "g" (.jstr "abc")
      ⟨[("g", ⟨"g", .jstr "N", .jnull, true, true, 0, 0⟩)],
       [("0", ⟨0, .jstr "u", .jstr "n", .jstr "", .jarr ["i"], .jarr [],
        "g", .jnum 0, 0, 1, 1, false⟩)], []⟩).1 = HResp.jsonOk 200 ∧
    (pairRows (postRating 9 "r1" "0" "g" (.jstr "abc")
      ⟨[("g", ⟨"g", .jstr "N", .jnull, true, true, 0, 0⟩)],
       [("0", ⟨0, .jstr "u", .jstr "n", .jstr "", .jarr ["i"], .jarr [],
        "g", .jnum 0, 0, 1, 1, false⟩)], []⟩).2 "0" "g").map (fun p => p.2.rating)
      = [.jstr "abc"] ∧
    JSVal.jstr "abc" ∈ (maskRows (postRating 9 "r1" "0" "g" (.jstr "abc")
      ⟨[("g", ⟨"g", .jstr "N", .jnull, true, true, 0, 0⟩)],
       [("0", ⟨0, .jstr "u", .jstr "n", .jstr "", .jarr ["i"], .jarr [],
        "g", .jnum 0, 0, 1, 1, false⟩)], []⟩).2 "0").map (fun p => p.2.rating) ∧
    ∃ md2, getDoc (postRating 9 "r1" "0" "g" (.jstr "abc")
      ⟨[("g", ⟨"g", .jstr "N", .jnull, true, true, 0, 0⟩)],
       [("0", ⟨0, .jstr "u", .jstr "n", .jstr "", .jarr ["i"], .jarr [],
        "g", .jnum 0, 0, 1, 1, false⟩)], []⟩).2.masks "0" = some md2 ∧
      md2.averageRating = recomputedAverage (maskRows (postRating 9 "r1" "0" "g" (.jstr "abc")
      ⟨[("g", ⟨"g", .jstr "N", .jnull, true, true, 0, 0⟩)],
       [("0", ⟨0, .jstr "u", .jstr "n", .jstr "", .jarr ["i"], .jarr [],
        "g", .jnum 0, 0, 1, 1, false⟩)], []⟩).2 "0") ∧
      md2.ratingsCount = (maskRows (postRating 9 "r1" "0" "g" (.jstr "abc")
      ⟨[("g", ⟨"g", .jstr "N", .jnull, true, true, 0, 0⟩)],
       [("0", ⟨0, .jstr "u", .jstr "n", .jstr "", .jarr ["i"], .jarr [],
        "g", .jnum 0, 0, 1, 1, false⟩)], []⟩).2 "0").length :=
  postRating_accepts_any_nonempty_rating 9 "r1" "0" "g" (.jstr "abc")
    ⟨[("g", ⟨"g", .jstr "N", .jnull, true, true, 0, 0⟩)],
     [("0", ⟨0, .jstr "u", .jstr "n", .jstr "", .jarr ["i"], .jarr [],
      "g", .jnum 0, 0, 1, 1, false⟩)], []⟩
    ⟨0, .jstr "u", .jstr "n", .jstr "", .jarr ["i"], .jarr [], "g", .jnum 0, 0, 1, 1, false⟩
    ⟨"g", .jstr "N", .jnull, true, true, 0, 0⟩
    (by decide) (by decide) (by decide) (by decide) (by decide)
    (by decide) (by decide) (by decide) (by decide) (by decide) (by decide)

/-- C3 (amended).  `postRating` is idempotent per (maskId, googleId) when
the request's `maskId` is the mask's document-key string (on which the
source's `String(maskId)` is the identity, so the raw-value handler
coincides with this one by `postRatingReq_jstr`): on a store with unique
document keys and at most one rating row per pair, posting rating 5 and
then rating 3 for the same pair (mask and permitted user existing) both
succeed with 200 and leave exactly one rating row for the pair, valued 3;
the rating rows' (maskId, googleId) pairs stay pairwise distinct, and the
mask's `ratingsCount` and `averageRating` are the row count and the
recomputed aggregate over exactly those distinct-pair rows.  For a numeric
`maskId` the property fails: the pair lookup compares the raw number
against rows stored with the stringified id and never matches, so repeated
posts insert duplicate rows for the pair. -/
theorem postRating_five_then_three_one_row (now1 now2 : ℕ) (k1 k2 m g : String)
    (db : DB) (md : MaskDoc) (u : UserDoc)
    (h1 : m ≠ "") (h2 : g ≠ "")
    (hm : getDoc db.masks m = some md) (hu : getDoc db.users g = some u)
    (hcc : u.canComment = true)
    (hkeys : (db.ratings.map Prod.fst).Nodup)
    (hpair : (db.ratings.map (fun p => (p.2.maskId, p.2.googleId))).Nodup)
    (hf1 : k1 ∉ db.ratings.map Prod.fst) :
    (postRating now1 k1 m g (.jnum 5) db).1 = HResp.jsonOk 200 ∧
    (postRating now2 k2 m g (.jnum 3) (postRating now1 k1 m g (.jnum 5) db).2).1
      = HResp.jsonOk 200 ∧
    (pairRows (postRating now2 k2 m g (.jnum 3)
        (postRating now1 k1 m g (.jnum 5) db).2).2 m g).map (fun p => p.2.rating)
      = [.jnum 3] ∧
    ((postRating now2 k2 m g (.jnum 3)
        (postRating now1 k1 m g (.jnum 5) db).2).2.ratings.map
        (fun p => (p.2.maskId, p.2.googleId))).Nodup ∧
    ∃ md2, getDoc (postRating now2 k2 m g (.jnum 3)
        (postRating now1 k1 m g (.jnum 5) db).2).2.masks m = some md2 ∧
      md2.ratingsCount = (maskRows (postRating now2 k2 m g (.jnum 3)
        (postRating now1 k1 m g (.jnum 5) db).2).2 m).length ∧
      md2.averageRating = recomputedAverage (maskRows (postRating now2 k2 m g (.jnum 3)
        (postRating now1 k1 m g (.jnum 5) db).2).2 m) := by
  have hv5 : isEmptyOrNullish (.jnum 5) = false := rfl
  have hv3 : isEmptyOrNullish (.jnum 3) = false := rfl
  have hse1 := postRating_success_eq now1 k1 m g (.jnum 5) db md u h1 h2 hv5 hm hu hcc
  obtain ⟨kk1, hpr1, hk1n, hp1n, hus1, hget1, hne1⟩ :=
    postRatingWrite_spec now1 k1 m g (.jnum 5) db md hm hkeys hpair (fun _ => hf1)
  have hu1 : getDoc (postRatingWrite now1 k1 m g (.jnum 5) db).users g = some u := by
    rw [hus1]
    exact hu
  have hse2 := postRating_success_eq now2 k2 m g (.jnum 3)
    (postRatingWrite now1 k1 m g (.jnum 5) db) _ u h1 h2 hv3 hget1 hu1 hcc
  have hfresh2 : pairRows (postRatingWrite now1 k1 m g (.jnum 5) db) m g = [] →
      k2 ∉ (postRatingWrite now1 k1 m g (.jnum 5) db).ratings.map Prod.fst := by
    intro hemp
    rw [hpr1] at hemp
    simp at hemp
  obtain ⟨kk2, hpr2, hk2n, hp2n, hus2, hget2, hne2⟩ :=
    postRatingWrite_spec now2 k2 m g (.jnum 3)
      (postRatingWrite now1 k1 m g (.jnum 5) db) _ hget1 hk1n hp1n hfresh2
  have hstep2eq : postRating now2 k2 m g (.jnum 3) (postRating now1 k1 m g (.jnum 5) db).2
      = (HResp.jsonOk 200, postRatingWrite now2 k2 m g (.jnum 3)
          (postRatingWrite now1 k1 m g (.jnum 5) db)) := by
    rw [hse1]
    exact hse2
  refine ⟨by rw [hse1], by rw [hstep2eq], ?_, ?_, ?_⟩
  · rw [hstep2eq]
    show (pairRows (postRatingWrite now2 k2 m g (.jnum 3)
        (postRatingWrite now1 k1 m g (.jnum 5) db)) m g).map (fun p => p.2.rating)
      = [.jnum 3]
    rw [hpr2]
    rfl
  · rw [hstep2eq]
    exact hp2n
  · rw [hstep2eq]
    exact ⟨_, hget2, rfl, rfl⟩

theorem postRating_five_then_three_witness :
    (postRating 1 "ra" "0" "g" (.jnum 5)
      ⟨[("g", ⟨"g", .jstr "N", .jnull, true, true, 0, 0⟩)],
       [("0", ⟨0, .jstr "u", .jstr "n", .jstr "", .jarr ["i"], .jarr [],
        "g", .jnum 0, 0, 1, 1, false⟩)], []⟩).1 = HResp.jsonOk 200 ∧
    (postRating 2 "rb" "0" "g" (.jnum 3) (postRating 1 "ra" "0" "g" (.jnum 5)
      ⟨[("g", ⟨"g", .jstr "N", .jnull, true, true, 0, 0⟩)],
       [("0", ⟨0, .jstr "u", .jstr "n", .jstr "", .jarr ["i"], .jarr [],
        "g", .jnum 0, 0, 1, 1, false⟩)], []⟩).2).1 = HResp.jsonOk 200 ∧
    (pairRows (postRating 2 "rb" "0" "g" (.jnum 3) (postRating 1 "ra" "0" "g" (.jnum 5)
      ⟨[("g", ⟨"g", .jstr "N", .jnull, true, true, 0, 0⟩)],
       [("0", ⟨0, .jstr "u", .jstr "n", .jstr "", .jarr ["i"], .jarr [],
        "g", .jnum 0, 0, 1, 1, false⟩)], []⟩).2).2 "0" "g").map (fun p => p.2.rating)
      = [.jnum 3] ∧
    ((postRating 2 "rb" "0" "g" (.jnum 3) (postRating 1 "ra" "0" "g" (.jnum 5)
      ⟨[("g", ⟨"g", .jstr "N", .jnull, true, true, 0, 0⟩)],
       [("0", ⟨0, .jstr "u", .jstr "n", .jstr "", .jarr ["i"], .jarr [],
        "g", .jnum 0, 0, 1, 1, false⟩)], []⟩).2).2.ratings.map
        (fun p => (p.2.maskId, p.2.googleId))).Nodup ∧
    ∃ md2, getDoc (postRating 2 "rb" "0" "g" (.jnum 3) (postRating 1 "ra" "0" "g" (.jnum 5)
      ⟨[("g", ⟨"g", .jstr "N", .jnull, true, true, 0, 0⟩)],
       [("0", ⟨0, .jstr "u", .jstr "n", .jstr "", .jarr ["i"], .jarr [],
        "g", .jnum 0, 0, 1, 1, false⟩)], []⟩).2).2.masks "0" = some md2 ∧
      md2.ratingsCount = (maskRows (postRating 2 "rb" "0" "g" (.jnum 3)
        (postRating 1 "ra" "0" "g" (.jnum 5)
      ⟨[("g", ⟨"g", .jstr "N", .jnull, true, true, 0, 0⟩)],
       [("0", ⟨0, .jstr "u", .jstr "n", .jstr "", .jarr ["i"], .jarr [],
        "g", .jnum 0, 0, 1, 1, false⟩)], []⟩).2).2 "0").length ∧
      md2.averageRating = recomputedAverage (maskRows (postRating 2 "rb" "0" "g" (.jnum 3)
        (postRating 1 "ra" "0" "g" (.jnum 5)
      ⟨[("g", ⟨"g", .jstr "N", .jnull, true, true, 0, 0⟩)],
       [("0", ⟨0, .jstr "u", .jstr "n", .jstr "", .jarr ["i"], .jarr [],
        "g", .jnum 0, 0, 1, 1, false⟩)], []⟩).2).2 "0") :=
  postRating_five_then_three_one_row 1 2 "ra" "rb" "0" "g"
    ⟨[("g", ⟨"g", .jstr "N", .jnull, true, true, 0, 0⟩)],
     [("0", ⟨0, .jstr "u", .jstr "n", .jstr "", .jarr ["i"], .jarr [],
      "g", .jnum 0, 0, 1, 1, false⟩)], []⟩
    ⟨0, .jstr "u", .jstr "n", .jstr "", .jarr ["i"], .jarr [], "g", .jnum 0, 0, 1, 1, false⟩
    ⟨"g", .jstr "N", .jnull, true, true, 0, 0⟩
    (by decide) (by decide) (by decide) (by decide) (by decide)
    (by decide) (by decide) (by decide)

theorem postRatingReq_jstr (now : ℕ) (nk m g : String) (v : JSVal) (db : DB) :
    postRatingReq now nk (.jstr m) g v db = postRating now nk m g v db := by
  have hpred : (fun p : String × RatingDoc =>
      JSVal.jstr p.2.maskId == JSVal.jstr m && p.2.googleId == g)
      = (fun p : String × RatingDoc => p.2.maskId == m && p.2.googleId == g) := by
    funext p
    by_cases h : p.2.maskId = m
    · simp [h]
    · have e1 : (JSVal.jstr p.2.maskId == JSVal.jstr m) = false :=
        beq_eq_false_iff_ne.mpr (fun hc => h (JSVal.jstr.inj hc))
      have e2 : (p.2.maskId == m) = false := beq_eq_false_iff_ne.mpr h
      rw [e1, e2]
  have hraw : rawPairRows db (JSVal.jstr m) g = pairRows db m g := by
    simp only [rawPairRows, pairRows, hpred]
  by_cases h1 : m = ""
  · subst h1
    simp [postRatingReq, postRating, isEmptyOrNullish, jsLooseNull]
  have hiem : isEmptyOrNullish (JSVal.jstr m) = false := by
    simp only [isEmptyOrNullish, jsLooseNull, Bool.or_eq_false_iff, beq_eq_false_iff_ne]
    refine ⟨fun hc => h1 (JSVal.jstr.inj hc), ?_⟩
    trivial
  by_cases h2 : g = ""
  · simp [postRatingReq, postRating, hiem, h1, h2]
  by_cases h3 : isEmptyOrNullish v
  · simp [postRatingReq, postRating, hiem, h1, h2, h3]
  cases hm : getDoc db.masks m with
  | none => simp [postRatingReq, postRating, hiem, h1, h2, h3, jsPrimToDecimal, hm]
  | some md =>
    cases hu : getDoc db.users g with
    | none => simp [postRatingReq, postRating, hiem, h1, h2, h3, jsPrimToDecimal, hm, hu]
    | some u =>
      by_cases hcc : u.canComment
      · cases hh : (pairRows db m g).head? with
        | some x =>
          obtain ⟨k0, r0⟩ := x
          simp [postRatingReq, postRating, hiem, h1, h2, h3, jsPrimToDecimal, hm, hu, hcc,
            postRatingWrite, ratingUpsert, hraw, hh]
        | none =>
          simp [postRatingReq, postRating, hiem, h1, h2, h3, jsPrimToDecimal, hm, hu, hcc,
            postRatingWrite, ratingUpsert, hraw, hh]
      · simp [postRatingReq, postRating, hiem, h1, h2, h3, jsPrimToDecimal, hm, hu, hcc]

/-- C3 counterexample.  The claim asserts idempotence for every (maskId,
googleId) pair, but the source's pair lookup uses the raw request `maskId`
(index.js line 485) while the insert and the aggregate recomputation use
`String(maskId)` (lines 497 and 507).  At this concrete input the maskId is
the number 0 — the very form `createMask` returns in its 200 response — so
the type-strict lookup never matches the row stored with the string "0":
posting rating 5 and then rating 3 for the same pair answers 200 twice but
leaves two rating rows for the pair, valued 5 and 3 (not exactly one row
valued 3), and sets the mask's `ratingsCount` to 2 although only one
distinct pair has rated. -/
theorem postRating_numeric_maskId_duplicates :
    (postRatingReq 1 "r1" (.jnum 0) "g" (.jnum 5)
      ⟨[("g", ⟨"g", .jstr "N", .jnull, true, true, 0, 0⟩)],
       [("0", ⟨0, .jstr "u", .jstr "n", .jstr "", .jarr ["i"], .jarr [],
        "g", .jnum 0, 0, 1, 1, false⟩)], []⟩).1 = HResp.jsonOk 200 ∧
    (postRatingReq 2 "r2" (.jnum 0) "g" (.jnum 3)
      (postRatingReq 1 "r1" (.jnum 0) "g" (.jnum 5)
      ⟨[("g", ⟨"g", .jstr "N", .jnull, true, true, 0, 0⟩)],
       [("0", ⟨0, .jstr "u", .jstr "n", .jstr "", .jarr ["i"], .jarr [],
        "g", .jnum 0, 0, 1, 1, false⟩)], []⟩).2).1 = HResp.jsonOk 200 ∧
    (pairRows (postRatingReq 2 "r2" (.jnum 0) "g" (.jnum 3)
      (postRatingReq 1 "r1" (.jnum 0) "g" (.jnum 5)
      ⟨[("g", ⟨"g", .jstr "N", .jnull, true, true, 0, 0⟩)],
       [("0", ⟨0, .jstr "u", .jstr "n", .jstr "", .jarr ["i"], .jarr [],
        "g", .jnum 0, 0, 1, 1, false⟩)], []⟩).2).2 "0" "g").map (fun p => p.2.rating)
      = [.jnum 5, .jnum 3] ∧
    (pairRows (postRatingReq 2 "r2" (.jnum 0) "g" (.jnum 3)
      (postRatingReq 1 "r1" (.jnum 0) "g" (.jnum 5)
      ⟨[("g", ⟨"g", .jstr "N", .jnull, true, true, 0, 0⟩)],
       [("0", ⟨0, .jstr "u", .jstr "n", .jstr "", .jarr ["i"], .jarr [],
        "g", .jnum 0, 0, 1, 1, false⟩)], []⟩).2).2 "0" "g").map (fun p => p.2.rating)
      ≠ [.jnum 3] ∧
    (getDoc (postRatingReq 2 "r2" (.jnum 0) "g" (.jnum 3)
      (postRatingReq 1 "r1" (.jnum 0) "g" (.jnum 5)
      ⟨[("g", ⟨"g", .jstr "N", .jnull, true, true, 0, 0⟩)],
       [("0", ⟨0, .jstr "u", .jstr "n", .jstr "", .jarr ["i"], .jarr [],
        "g", .jnum 0, 0, 1, 1, false⟩)], []⟩).2).2.masks "0").map
        (fun mm => mm.ratingsCount) = some 2 := by
  decide
